import Mathlib

/-
  Verification of the echocache single-flight coalescing cache
  (src/echocache/src/lib.rs) and its B2 bucket-cache consumer
  (src/b2-client/src/bucket.rs, B2Client::get_bucket).

  Shallow embedding. Monotonic time (std::time::Instant) is a natural
  number. The tokio broadcast channel of capacity 1 is a record holding
  whether the strong sender (the Arc held by the spawned task) is still
  alive and the at-most-one buffered message. A factory closure
  (FnOnce() -> BoxFut) is data: an identifier plus the value its future
  will eventually produce; invoking a factory is recorded in an
  invocation log, so "the factory was never invoked" is the statement
  that the log is unchanged. Spawned tasks are pending FetchTask
  records; taskComplete is the effect of one spawned task body running
  to completion (the lock-protected epilogue at lines 134-145 of
  lib.rs, plus the cache write of the wrapping closure at lines
  257-264 when present). The mutexes serialize all these operations,
  so a concurrent execution is an interleaving of these atomic steps.
-/

set_option maxHeartbeats 1000000

namespace Echocache

/-- Monotonic clock instants are modelled as natural numbers. -/
abbrev Instant := Nat

/-- tokio::sync::broadcast::error::RecvError. -/
inductive RecvError where
  | closed
  | lagged (skipped : Nat)
deriving Repr, DecidableEq

/-- One tokio broadcast channel of capacity 1, as created at line 124 of
lib.rs. senderLive says whether the strong Arc around the sender (held
by the spawned task) has not yet been dropped; buffer is the at most one
message sent on it. -/
structure BChannel (T : Type) where
  senderLive : Bool
  buffer : Option T
deriving Repr, DecidableEq

/-- A factory closure FnOnce() -> BoxFut<'static, T>, as data: fid
identifies the closure, value is what its future will produce. -/
structure Factory (T : Type) where
  fid : Nat
  value : T
deriving Repr, DecidableEq

/-- A spawned fetch task (tokio::spawn at line 134 of lib.rs). chan is
the broadcast channel it will send on, req the RequestInner instance
whose inflight marker it will clear, value the result its future
produces. writesCache is true exactly for the wrapping closure built in
the Empty/expired branch of Cached::get (lines 253-265), which stores
the result into the cache before returning it; expiration is the cache
duration it captured. -/
structure FetchTask (T : Type) where
  chan : Nat
  req : Nat
  value : T
  writesCache : Bool
  expiration : Option Nat
deriving Repr, DecidableEq

/-- struct RequestInner: an optional weak reference to a broadcast
sender, here the index of the channel it points at (liveness is looked
up in the channel table). -/
structure RequestInner where
  inflight : Option Nat
deriving Repr, DecidableEq

/-- enum InnerCache: Empty, Inflight (holding a Request, here the index
of a RequestInner instance), or Cached with a value and an optional
expiry instant. -/
inductive InnerCache (T : Type) where
  | empty
  | inflight (rid : Nat)
  | cached (value : T) (expires : Option Instant)
deriving Repr, DecidableEq

/-- The whole observable state: one Cached instance (its InnerCache and
its configured expiration Duration), the table of RequestInner
instances, the table of broadcast channels, the pending spawned tasks,
and the log of factory invocations (fids, in order). -/
structure CacheWorld (T : Type) where
  cache : InnerCache T
  expiration : Option Nat
  requests : List RequestInner
  channels : List (BChannel T)
  tasks : List (FetchTask T)
  invoked : List Nat
deriving Repr, DecidableEq

variable {T U : Type}

/-- Read a RequestInner from the table; a missing index reads as a
default instance with no inflight marker. -/
def reqAt (w : CacheWorld T) (rid : Nat) : RequestInner :=
  w.requests.getD rid ⟨none⟩

/-- Read a channel from the table; a missing index reads as a dead empty
channel. -/
def chanAt (w : CacheWorld T) (c : Nat) : BChannel T :=
  w.channels.getD c ⟨false, none⟩

/-- RequestInner::get_reciever (lines 25-30 of lib.rs): upgrade the weak
reference and subscribe. Returns the channel subscribed to, or none if
no weak reference is stored or the upgrade fails (sender dropped). -/
def get_reciever (w : CacheWorld T) (rid : Nat) : Option Nat :=
  match (reqAt w rid).inflight with
  | none => none
  | some c => if (chanAt w c).senderLive then some c else none

/-- The outcome of one call to Request::handle: the channel the returned
Handle subscribes to, and the successor world. -/
structure HandleOut (T : Type) where
  chan : Nat
  world : CacheWorld T
deriving Repr, DecidableEq

/-- Request::handle (lines 111-150 of lib.rs), one atomic critical
section under the RequestInner mutex. If the weak reference upgrades,
subscribe to the existing broadcast and discard the factory. Otherwise
create a fresh capacity-1 channel, store a weak reference to its sender,
invoke the factory (this appends f.fid to the invocation log), spawn the
fetch task, and subscribe to the fresh channel. writesCache marks
whether the invoked closure is the cache-storing wrapper of
Cached::get. -/
def Request.handle (w : CacheWorld T) (rid : Nat) (f : Factory T)
    (writesCache : Bool) : HandleOut T :=
  match get_reciever w rid with
  | some c => ⟨c, w⟩
  | none =>
    let c := w.channels.length
    ⟨c,
      { w with
        channels := w.channels ++ [⟨true, none⟩]
        requests := w.requests.set rid ⟨some c⟩
        tasks := w.tasks ++ [⟨c, rid, f.value, writesCache, w.expiration⟩]
        invoked := w.invoked ++ [f.fid] }⟩

/-- Validity test applied to a Cached entry, the guard
expires.map(|e| e >= Instant::now()).unwrap_or(true) appearing verbatim
at line 224 (map_cached) and line 245 (get) of lib.rs. -/
def stillValid (expires : Option Instant) (now : Instant) : Bool :=
  (expires.map (fun e => decide (now ≤ e))).getD true

/-- InnerCache::new_with_value (lines 172-175 of lib.rs): the expiry
instant is now + lifetime, computed when the value is stored. -/
def InnerCache.new_with_value (value : T) (expiration : Option Nat)
    (now : Instant) : InnerCache T :=
  InnerCache.cached value (expiration.map (fun lifetime => now + lifetime))

/-- What the synchronous critical section of Cached::get produces:
either an immediate return of the cached value (the fast path, line 247,
no suspension), or a handle on a broadcast channel that the caller must
await. -/
inductive GetOutcome (T : Type) where
  | fastPath (value : T)
  | handleWait (chan : Nat)
deriving Repr, DecidableEq

/-- Cached::clear (lines 212-215 of lib.rs): unconditionally reset the
state to Empty. -/
def Cached.clear (w : CacheWorld T) : CacheWorld T :=
  { w with cache := InnerCache.empty }

/-- Cached::map_cached (lines 217-230 of lib.rs): apply f to the cached
value if the state is Cached and the entry is still valid; otherwise
none. Reads under the lock only; it takes no factory and changes no
state. -/
def Cached.map_cached (w : CacheWorld T) (now : Instant) (f : T → U) :
    Option U :=
  match w.cache with
  | InnerCache.cached v e => if stillValid e now then some (f v) else none
  | _ => none

/-- The default-arm body of Cached::get (lines 250-269 of lib.rs):
create a fresh Request, call handle on it with the wrapping
cache-storing closure (writesCache = true; invoking the wrapper invokes
the caller factory f inside it), then set the cache state to Inflight
over that Request. -/
def Cached.startFetch (w : CacheWorld T) (f : Factory T) :
    GetOutcome T × CacheWorld T :=
  let rid := w.requests.length
  let w1 := { w with requests := w.requests ++ [⟨none⟩] }
  let h := Request.handle w1 rid f true
  (GetOutcome.handleWait h.chan, { h.world with cache := InnerCache.inflight rid })

/-- The synchronous critical section of Cached::get (lines 241-271 of
lib.rs): fast path when a valid Cached entry is present; join the
existing coalescer (passing the caller factory straight through,
writesCache = false) when Inflight; otherwise (Empty, or Cached but
expired) start a fresh fetch. -/
def Cached.getStep (w : CacheWorld T) (now : Instant) (f : Factory T) :
    GetOutcome T × CacheWorld T :=
  match w.cache with
  | InnerCache.cached v e =>
    if stillValid e now then (GetOutcome.fastPath v, w)
    else Cached.startFetch w f
  | InnerCache.inflight rid =>
    let h := Request.handle w rid f false
    (GetOutcome.handleWait h.chan, h.world)
  | InnerCache.empty => Cached.startFetch w f

/-- Completion of the spawned task at index i of the pending list: the
wrapping closure (if writesCache) stores the value into the cache as a
fresh Cached entry (lines 257-264 of lib.rs), then the spawn body locks
the RequestInner, clears the inflight marker, sends the result on the
broadcast channel and drops the strong sender (lines 134-145). A world
with no task at index i is unchanged. -/
def taskComplete (w : CacheWorld T) (now : Instant) (i : Nat) : CacheWorld T :=
  match w.tasks.get? i with
  | none => w
  | some t =>
    { w with
      cache := if t.writesCache
        then InnerCache.new_with_value t.value t.expiration now
        else w.cache
      requests := w.requests.set t.req ⟨none⟩
      channels := w.channels.set t.chan ⟨false, some t.value⟩
      tasks := w.tasks.eraseIdx i }

/-- tokio broadcast Receiver::recv for a capacity-1 channel, resolved
against a final channel state: sent is the list of messages sent so far,
pos the position of this receiver. none means the receive is still
pending; a receiver more than one message behind gets Lagged, a receiver
with no message and a dropped sender gets Closed. -/
def broadcastRecv (sent : List T) (pos : Nat) (senderLive : Bool) :
    Option (Except RecvError T) :=
  if h : pos < sent.length then
    if sent.length > pos + 1 then
      some (Except.error (RecvError.lagged (sent.length - 1 - pos)))
    else some (Except.ok (sent.get ⟨pos, h⟩))
  else if senderLive then none
  else some (Except.error RecvError.closed)

/-- Messages ever sent on a channel of the world (each coalescer channel
sends at most once, so the buffer is the whole history). -/
def chanSent (c : BChannel T) : List T :=
  match c.buffer with
  | some v => [v]
  | none => []

/-- What awaiting a Handle subscribed (at position 0) to channel c of
world w resolves to: none while the fetch is pending, some outcome once
it can complete. This is Handle::poll, i.e. reciever.recv() (lines
63-72 of lib.rs). -/
def recvResolve (w : CacheWorld T) (c : Nat) : Option (Except RecvError T) :=
  broadcastRecv (chanSent (chanAt w c)) 0 (chanAt w c).senderLive

/-- Request::get (lines 152-157 of lib.rs) is self.handle(f).await: the
broadcast receive outcome is returned to the caller unchanged, as a
Result. -/
def Request.getOutcome (w : CacheWorld T) (c : Nat) :
    Option (Except RecvError T) :=
  recvResolve w c

/-- The final step of Cached::get, handle.await.unwrap() at line 272 of
lib.rs: Result::unwrap panics on Err. some v models a normal return of
v; none models the panic, in which no value and no error reaches the
caller. -/
def unwrapResolve : Except RecvError T → Option T
  | Except.ok v => some v
  | Except.error _ => none

/-- What awaiting the slow path of Cached::get on channel c resolves to:
outer none while pending; some none is the unwrap panic; some (some v)
is a normal return of v. -/
def Cached.awaitResolve (w : CacheWorld T) (c : Nat) : Option (Option T) :=
  (recvResolve w c).map unwrapResolve

/-- The cache-interaction sequence of B2Client::get_bucket (lines
172-188 of bucket.rs), with isErr standing for Result::is_err: first, if
map_cached(is_err) returns Some(true), clear the cache; then call
Cached::get. The check precedes the get. -/
def get_bucket_step (w : CacheWorld T) (isErr : T → Bool) (now : Instant)
    (f : Factory T) : GetOutcome T × CacheWorld T :=
  let w1 := if (Cached.map_cached w now isErr).getD false
    then Cached.clear w else w
  Cached.getStep w1 now f

/-- Modelled from the claim wording, for comparison with
get_bucket_step: the variant in which the map_cached check and the
conditional clear happen after the get instead of before it. -/
def get_bucket_spec_step (w : CacheWorld T) (isErr : T → Bool)
    (now : Instant) (f : Factory T) : GetOutcome T × CacheWorld T :=
  let r := Cached.getStep w now f
  let w2 := if (Cached.map_cached r.2 now isErr).getD false
    then Cached.clear r.2 else r.2
  (r.1, w2)

/-- A fetch is in flight on request rid with broadcast channel c: the
weak reference is present and its upgrade succeeds. -/
def liveInflight (w : CacheWorld T) (rid c : Nat) : Prop :=
  (reqAt w rid).inflight = some c ∧ (chanAt w c).senderLive = true

/-- N calls to Request::handle on the same Request, serialized by its
mutex (the model of N concurrent callers racing on the coalescer):
returns the channel each resulting Handle subscribes to, and the final
world. -/
def handleAll (w : CacheWorld T) (rid : Nat) (fs : List (Factory T)) :
    List Nat × CacheWorld T :=
  match fs with
  | [] => ([], w)
  | f :: rest =>
    let h := Request.handle w rid f false
    let r := handleAll h.world rid rest
    (h.chan :: r.1, r.2)

/-- The pending fetch tasks spawned on behalf of request rid. -/
def fetchesOf (w : CacheWorld T) (rid : Nat) : List (FetchTask T) :=
  w.tasks.filter (fun t => t.req == rid)

/-- A freshly constructed Cached (Cached::new, lines 197-202 of
lib.rs): Empty state, no requests, channels or tasks yet. -/
def initWorld (expiration : Option Nat) : CacheWorld T :=
  ⟨InnerCache.empty, expiration, [], [], [], []⟩

/-- Well-formedness of a world, the conjunction of invariants the code
maintains: every pending task targets an existing channel and request;
a pending task is exactly the fetch its request's weak reference points
at, and its strong sender is still alive (the spawned task holds the
Arc until it completes); distinct pending tasks own distinct channels;
an Inflight cache state refers to an existing request. -/
structure WF (w : CacheWorld T) : Prop where
  taskChanLt : ∀ t ∈ w.tasks, t.chan < w.channels.length
  taskReqLt : ∀ t ∈ w.tasks, t.req < w.requests.length
  taskInflight : ∀ t ∈ w.tasks, (reqAt w t.req).inflight = some t.chan
  taskLive : ∀ t ∈ w.tasks, (chanAt w t.chan).senderLive = true
  chanNodup : (w.tasks.map FetchTask.chan).Nodup
  cacheRid : ∀ rid, w.cache = InnerCache.inflight rid → rid < w.requests.length

/-- The atomic transitions of the system: the critical section of
Cached::get, Cached::clear, a direct Request::handle on an existing
request, and the completion of a spawned fetch task. -/
inductive Step : CacheWorld T → CacheWorld T → Prop where
  | get (w : CacheWorld T) (now : Instant) (f : Factory T) :
      Step w (Cached.getStep w now f).2
  | clear (w : CacheWorld T) : Step w (Cached.clear w)
  | handle (w : CacheWorld T) (rid : Nat) (f : Factory T) (b : Bool)
      (h : rid < w.requests.length) :
      Step w (Request.handle w rid f b).world
  | complete (w : CacheWorld T) (now : Instant) (i : Nat) :
      Step w (taskComplete w now i)

/-- A world whose only channel is dead without having sent: the sender
was dropped before sending anything. -/
def exampleDeadChannelWorld : CacheWorld Bool :=
  ⟨InnerCache.empty, none, [], [⟨false, none⟩], [], []⟩

/-- A world whose cache is Inflight over request 0, whose weak reference
points at the dead channel 0. -/
def exampleInflightDeadWorld : CacheWorld Bool :=
  ⟨InnerCache.inflight 0, none, [⟨some 0⟩], [⟨false, none⟩], [], []⟩

/-- A world holding an unexpired cached value that represents an error
(T = Bool, true read as Err), with a 10-tick expiration Duration. -/
def exampleCachedErrWorld : CacheWorld Bool :=
  ⟨InnerCache.cached true none, some 10, [], [], [], []⟩

/-- A world with a live in-flight fetch: cache Inflight over request 0,
whose weak reference points at the live channel 0, with the matching
pending task. -/
def exampleLiveInflightWorld : CacheWorld Bool :=
  ⟨InnerCache.inflight 0, none, [⟨some 0⟩], [⟨true, none⟩],
    [⟨0, 0, true, false, none⟩], []⟩

lemma getD_append_left (l l2 : List α) (i : Nat) (d : α) (h : i < l.length) :
    (l ++ l2).getD i d = l.getD i d := by
  simp [List.getD, List.getElem?_append, h]

lemma getD_append_length (l : List α) (a d : α) :
    (l ++ [a]).getD l.length d = a := by
  simp [List.getD]

lemma getD_set_self (l : List α) (i : Nat) (a d : α) (h : i < l.length) :
    (l.set i a).getD i d = a := by
  simp [List.getD, List.getElem?_set_self, h]

lemma getD_set_ne (l : List α) (i j : Nat) (a d : α) (h : i ≠ j) :
    (l.set i a).getD j d = l.getD j d := by
  simp [List.getD, List.getElem?_set_ne h]

lemma map_nodup_eraseIdx_ne (l : List α) (f : α → β) (i : Nat) (a : α)
    (hn : (l.map f).Nodup) (hi : l.get? i = some a) :
    ∀ b ∈ l.eraseIdx i, f b ≠ f a := by
  induction l generalizing i with
  | nil => simp at hi
  | cons x tl ih =>
    rcases List.nodup_cons.mp hn with ⟨hx, htl⟩
    cases i with
    | zero =>
      simp only [List.get?] at hi
      injection hi with hi
      subst hi
      intro b hb heq
      exact hx (heq ▸ List.mem_map_of_mem f hb)
    | succ j =>
      simp only [List.get?] at hi
      intro b hb heq
      rcases List.mem_cons.mp hb with hbx | hbe
      · subst hbx
        exact hx (heq ▸ List.mem_map_of_mem f (List.get?_mem hi))
      · exact ih j htl hi b hbe heq

lemma handle_of_live (w : CacheWorld T) (rid c : Nat) (f : Factory T)
    (b : Bool) (hl : liveInflight w rid c) :
    Request.handle w rid f b = ⟨c, w⟩ := by
  rcases hl with ⟨h1, h2⟩
  simp [Request.handle, get_reciever, h1, h2]

lemma startFetch_spec (w : CacheWorld T) (f : Factory T) :
    Cached.startFetch w f =
      (GetOutcome.handleWait w.channels.length,
        ({ cache := InnerCache.inflight w.requests.length
           expiration := w.expiration
           requests := (w.requests ++ [(⟨none⟩ : RequestInner)]).set w.requests.length
             (⟨some w.channels.length⟩ : RequestInner)
           channels := w.channels ++ [⟨true, none⟩]
           tasks := w.tasks ++
             [⟨w.channels.length, w.requests.length, f.value, true, w.expiration⟩]
           invoked := w.invoked ++ [f.fid] } : CacheWorld T)) := by
  have hrecv : get_reciever
      ({ w with requests := w.requests ++ [⟨none⟩] } : CacheWorld T)
      w.requests.length = none := by
    simp [get_reciever, reqAt, getD_append_length]
  simp [Cached.startFetch, Request.handle, hrecv]

lemma getStep_clear (w : CacheWorld T) (now : Instant) (f : Factory T) :
    Cached.getStep (Cached.clear w) now f = Cached.startFetch (Cached.clear w) f := by
  simp [Cached.getStep, Cached.clear]

/-- C2: when the cache state is Cached with a value whose expiry is
absent or not yet passed, Cached::get takes the fast path: it returns a
clone of the stored value from inside the synchronous critical section
(GetOutcome.fastPath, no suspension) and leaves the world unchanged, so
the caller factory is never invoked and no state changes. -/
theorem cached_get_fast_path (w : CacheWorld T) (now : Instant)
    (f : Factory T) (v : T) (e : Option Instant)
    (hc : w.cache = InnerCache.cached v e) (hv : stillValid e now = true) :
    Cached.getStep w now f = (GetOutcome.fastPath v, w) := by
  simp [Cached.getStep, hc, hv]

/-- Witness for cached_get_fast_path at a concrete world: value true
cached with expiry instant 5, read at instant 5. -/
theorem cached_get_fast_path_witness :
    Cached.getStep (⟨InnerCache.cached true (some 5), none, [], [], [], []⟩ :
        CacheWorld Bool) 5 ⟨7, false⟩ =
      (GetOutcome.fastPath true,
        ⟨InnerCache.cached true (some 5), none, [], [], [], []⟩) :=
  cached_get_fast_path _ 5 ⟨7, false⟩ true (some 5) rfl (by decide)

/-- C7: Cached::map_cached never invokes any factory (it takes no
factory and changes no state: its model is a pure function of the world)
and returns none when the state is Empty, Inflight, or Cached but
expired; it returns some (f value) exactly for an unexpired Cached
entry. -/
theorem map_cached_no_fetch (w : CacheWorld T) (now : Instant) (g : T → U) :
    (w.cache = InnerCache.empty → Cached.map_cached w now g = none)
    ∧ (∀ rid, w.cache = InnerCache.inflight rid →
        Cached.map_cached w now g = none)
    ∧ (∀ v e, w.cache = InnerCache.cached v e → stillValid e now = false →
        Cached.map_cached w now g = none)
    ∧ (∀ v e, w.cache = InnerCache.cached v e → stillValid e now = true →
        Cached.map_cached w now g = some (g v)) := by
  refine ⟨fun h => ?_, fun rid h => ?_, fun v e h hv => ?_, fun v e h hv => ?_⟩
  · simp [Cached.map_cached, h]
  · simp [Cached.map_cached, h]
  · simp [Cached.map_cached, h, hv]
  · simp [Cached.map_cached, h, hv]

/-- Witness for map_cached_no_fetch: the Empty, Inflight, expired and
valid cases at concrete worlds. -/
theorem map_cached_no_fetch_witness :
    Cached.map_cached (initWorld (T := Bool) none) 0 id = none
    ∧ Cached.map_cached exampleInflightDeadWorld 0 id = none
    ∧ Cached.map_cached (⟨InnerCache.cached true (some 3), none, [], [], [], []⟩ :
        CacheWorld Bool) 4 id = none
    ∧ Cached.map_cached (⟨InnerCache.cached true (some 3), none, [], [], [], []⟩ :
        CacheWorld Bool) 3 id = some true :=
  ⟨(map_cached_no_fetch _ 0 id).1 rfl,
   (map_cached_no_fetch _ 0 id).2.1 0 rfl,
   (map_cached_no_fetch _ 4 id).2.2.1 true (some 3) rfl (by decide),
   (map_cached_no_fetch _ 3 id).2.2.2 true (some 3) rfl (by decide)⟩

/-- C3: a Cached entry is valid exactly when expires is at least now
(exactly-at-expiry is still valid, a missing expiry never expires), and
this test is applied identically by Cached::get and Cached::map_cached:
a valid entry gives the fast path in get and some in map_cached; an
expired entry gives none in map_cached, and get behaves exactly as if
the state had been cleared to Empty (treated as absent). -/
theorem expiry_boundary (now : Instant) :
    (∀ e : Instant, stillValid (some e) now = decide (now ≤ e))
    ∧ stillValid (none : Option Instant) now = true
    ∧ (∀ e : Instant, stillValid (some e) e = true)
    ∧ (∀ (w : CacheWorld T) (f : Factory T) (g : T → U) v e,
        w.cache = InnerCache.cached v e → stillValid e now = true →
        Cached.getStep w now f = (GetOutcome.fastPath v, w)
        ∧ Cached.map_cached w now g = some (g v))
    ∧ (∀ (w : CacheWorld T) (f : Factory T) (g : T → U) v e,
        w.cache = InnerCache.cached v e → stillValid e now = false →
        Cached.map_cached w now g = none
        ∧ Cached.getStep w now f = Cached.getStep (Cached.clear w) now f) := by
  refine ⟨fun e => rfl, rfl, fun e => by simp [stillValid], ?_, ?_⟩
  · intro w f g v e hc hv
    exact ⟨by simp [Cached.getStep, hc, hv], by simp [Cached.map_cached, hc, hv]⟩
  · intro w f g v e hc hv
    refine ⟨by simp [Cached.map_cached, hc, hv], ?_⟩
    rw [getStep_clear]
    simp only [Cached.getStep, hc, hv, Bool.false_eq_true, if_false]
    rw [startFetch_spec, startFetch_spec]
    simp [Cached.clear]

/-- Witness for expiry_boundary at now = 4: an entry expiring at 4 is
still valid and served; an entry that expired at 3 is treated as absent
by both readers. -/
theorem expiry_boundary_witness :
    stillValid (some 4) 4 = true
    ∧ (Cached.getStep (⟨InnerCache.cached false (some 4), none, [], [], [], []⟩ :
          CacheWorld Bool) 4 ⟨1, true⟩ =
        (GetOutcome.fastPath false,
          ⟨InnerCache.cached false (some 4), none, [], [], [], []⟩))
    ∧ Cached.map_cached (⟨InnerCache.cached false (some 3), none, [], [], [], []⟩ :
        CacheWorld Bool) 4 id = none
    ∧ Cached.getStep (⟨InnerCache.cached false (some 3), none, [], [], [], []⟩ :
        CacheWorld Bool) 4 ⟨1, true⟩ =
      Cached.getStep (Cached.clear
        (⟨InnerCache.cached false (some 3), none, [], [], [], []⟩ : CacheWorld Bool))
        4 ⟨1, true⟩ :=
  ⟨(expiry_boundary (T := Bool) (U := Bool) 4).2.2.1 4,
   ((expiry_boundary 4).2.2.2.1 _ ⟨1, true⟩ id false (some 4) rfl (by decide)).1,
   ((expiry_boundary 4).2.2.2.2 _ ⟨1, true⟩ id false (some 3) rfl (by decide)).1,
   ((expiry_boundary 4).2.2.2.2 _ ⟨1, true⟩ id false (some 3) rfl (by decide)).2⟩

/-- C4: Cached::clear resets any state to Empty; the next get on the
cleared cache always starts a new fetch (a fresh channel is subscribed,
the caller factory is invoked, and a cache-writing task is spawned); and
a fetch that was in flight at clear time still, on completion, writes a
fresh Cached entry over the Empty state. -/
theorem clear_then_refetch :
    (∀ (w : CacheWorld T), (Cached.clear w).cache = InnerCache.empty)
    ∧ (∀ (w : CacheWorld T) (now : Instant) (f : Factory T),
        (Cached.getStep (Cached.clear w) now f).1
            = GetOutcome.handleWait w.channels.length
        ∧ (Cached.getStep (Cached.clear w) now f).2.invoked
            = w.invoked ++ [f.fid]
        ∧ (Cached.getStep (Cached.clear w) now f).2.tasks = w.tasks ++
            [⟨w.channels.length, w.requests.length, f.value, true, w.expiration⟩])
    ∧ (∀ (w : CacheWorld T) (now : Instant) (i : Nat) (t : FetchTask T),
        w.tasks.get? i = some t → t.writesCache = true →
        (taskComplete (Cached.clear w) now i).cache
            = InnerCache.new_with_value t.value t.expiration now) := by
  refine ⟨fun w => rfl, fun w now f => ?_, fun w now i t ht hwr => ?_⟩
  · rw [getStep_clear, startFetch_spec]
    simp [Cached.clear]
  · have ht2 : (Cached.clear w).tasks[i]? = some t := by
      rw [← List.get?_eq_getElem?]; exact ht
    simp [taskComplete, ht2, hwr]

/-- Witness for clear_then_refetch: clearing the live-inflight world,
then a get that starts a new fetch, and a completion of the previously
pending cache-writing task over a cleared cache. -/
theorem clear_then_refetch_witness :
    (Cached.clear exampleLiveInflightWorld).cache = InnerCache.empty
    ∧ (Cached.getStep (Cached.clear exampleLiveInflightWorld) 0 ⟨8, false⟩).1
        = GetOutcome.handleWait 1
    ∧ (Cached.getStep (Cached.clear exampleLiveInflightWorld) 0 ⟨8, false⟩).2.invoked
        = [8]
    ∧ (taskComplete (Cached.clear
        (⟨InnerCache.inflight 0, some 10, [⟨some 0⟩], [⟨true, none⟩],
          [⟨0, 0, true, true, some 10⟩], []⟩ : CacheWorld Bool)) 2 0).cache
        = InnerCache.new_with_value true (some 10) 2 :=
  ⟨clear_then_refetch.1 exampleLiveInflightWorld,
   (clear_then_refetch.2.1 exampleLiveInflightWorld 0 ⟨8, false⟩).1,
   (clear_then_refetch.2.1 exampleLiveInflightWorld 0 ⟨8, false⟩).2.1,
   clear_then_refetch.2.2 _ 2 0 ⟨0, 0, true, true, some 10⟩ rfl rfl⟩

/-- C5: the slow path of Cached::get ends in handle.await.unwrap(), so
a broadcast receive that reports any RecvError makes Cached::get panic
(modelled as some none: no value and no error reaches the caller)
instead of propagating the error; an ok receive returns the value. -/
theorem cached_get_unwrap_panics :
    (∀ (e : RecvError), unwrapResolve (Except.error e : Except RecvError T) = none)
    ∧ (∀ (w : CacheWorld T) (c : Nat) (e : RecvError),
        recvResolve w c = some (Except.error e) →
        Cached.awaitResolve w c = some none)
    ∧ (∀ (w : CacheWorld T) (c : Nat) (v : T),
        recvResolve w c = some (Except.ok v) →
        Cached.awaitResolve w c = some (some v)) := by
  refine ⟨fun e => rfl, fun w c e h => ?_, fun w c v h => ?_⟩ <;>
    simp [Cached.awaitResolve, h, unwrapResolve]

/-- Witness for cached_get_unwrap_panics: on the dead channel the
receive reports Closed, and the Cached::get path panics. -/
theorem cached_get_unwrap_panics_witness :
    Cached.awaitResolve exampleDeadChannelWorld 0 = some none :=
  cached_get_unwrap_panics.2.1 exampleDeadChannelWorld 0 RecvError.closed rfl

/-- C8: Request::get returns the broadcast receive outcome unchanged as
a Result: a sender dropped without sending yields Except.error closed, a
receiver that missed the single buffered message yields
Except.error lagged; both are surfaced as Err values, never a panic and
never swallowed. -/
theorem request_get_surfaces_recv_error :
    (∀ (w : CacheWorld T) (c : Nat),
        (chanAt w c).senderLive = false → (chanAt w c).buffer = none →
        Request.getOutcome w c = some (Except.error RecvError.closed))
    ∧ (∀ (sent : List T) (pos : Nat) (live : Bool),
        sent.length > pos + 1 →
        broadcastRecv sent pos live =
          some (Except.error (RecvError.lagged (sent.length - 1 - pos))))
    ∧ (∀ (w : CacheWorld T) (c : Nat) (r : Except RecvError T),
        recvResolve w c = some r → Request.getOutcome w c = some r) := by
  refine ⟨fun w c hs hb => ?_, fun sent pos live h => ?_, fun w c r h => h⟩
  · simp [Request.getOutcome, recvResolve, chanSent, hb, hs, broadcastRecv]
  · have h1 : pos < sent.length := Nat.lt_of_le_of_lt (Nat.le_succ pos) h
    simp [broadcastRecv, h1, h]

/-- Witness for request_get_surfaces_recv_error: Closed on the dead
channel, and Lagged for a receiver two messages behind. -/
theorem request_get_surfaces_recv_error_witness :
    Request.getOutcome exampleDeadChannelWorld 0
        = some (Except.error RecvError.closed)
    ∧ broadcastRecv [false, true] 0 false
        = some (Except.error (RecvError.lagged 1)) :=
  ⟨request_get_surfaces_recv_error.1 exampleDeadChannelWorld 0 rfl rfl,
   request_get_surfaces_recv_error.2.1 [false, true] 0 false (by decide)⟩

/-- C9: when the stored weak reference is present but its upgrade fails
(the channel it points at has a dead sender), Request::handle does not
subscribe to the dead channel: it starts a new fetch on a fresh channel,
invokes the caller factory, and installs a fresh weak reference. -/
theorem dead_sender_fallback (w : CacheWorld T) (rid c : Nat)
    (f : Factory T) (b : Bool)
    (hin : (reqAt w rid).inflight = some c)
    (hdead : (chanAt w c).senderLive = false)
    (hrid : rid < w.requests.length)
    (hc : c < w.channels.length) :
    (Request.handle w rid f b).chan = w.channels.length
    ∧ (Request.handle w rid f b).chan ≠ c
    ∧ (Request.handle w rid f b).world.invoked = w.invoked ++ [f.fid]
    ∧ (reqAt (Request.handle w rid f b).world rid).inflight
        = some w.channels.length := by
  have hrecv : get_reciever w rid = none := by
    simp [get_reciever, hin, hdead]
  refine ⟨?_, ?_, ?_, ?_⟩
  · simp [Request.handle, hrecv]
  · simp only [Request.handle, hrecv]
    omega
  · simp [Request.handle, hrecv]
  · simp [Request.handle, hrecv, reqAt, List.getD, List.getElem?_set_self, hrid]

/-- Witness for dead_sender_fallback: the inflight-dead world falls
through to a fresh fetch on channel 1. -/
theorem dead_sender_fallback_witness :
    (Request.handle exampleInflightDeadWorld 0 ⟨9, true⟩ false).chan = 1
    ∧ (Request.handle exampleInflightDeadWorld 0 ⟨9, true⟩ false).chan ≠ 0
    ∧ (Request.handle exampleInflightDeadWorld 0 ⟨9, true⟩ false).world.invoked = [9]
    ∧ (reqAt (Request.handle exampleInflightDeadWorld 0 ⟨9, true⟩ false).world
        0).inflight = some 1 :=
  dead_sender_fallback exampleInflightDeadWorld 0 0 ⟨9, true⟩ false rfl rfl
    (by decide) (by decide)

/-- C6 counterexample: B2Client::get_bucket checks map_cached(is_err)
and clears before calling Cached::get, not after it. At a world holding
an unexpired cached Err, the source order starts a fresh fetch on this
very call (the outcome is a handle on a new channel and the factory is
invoked), while the order stated by the claim would serve the cached Err
on this call and invoke nothing. -/
theorem get_bucket_order_counterexample :
    (get_bucket_step exampleCachedErrWorld id 0 ⟨3, false⟩).1
        = GetOutcome.handleWait 0
    ∧ (get_bucket_step exampleCachedErrWorld id 0 ⟨3, false⟩).2.invoked = [3]
    ∧ (get_bucket_spec_step exampleCachedErrWorld id 0 ⟨3, false⟩).1
        = GetOutcome.fastPath true
    ∧ (get_bucket_spec_step exampleCachedErrWorld id 0 ⟨3, false⟩).2.invoked
        = [] :=
  ⟨rfl, rfl, rfl, rfl⟩

/-- C6 amended: before each get, B2Client::get_bucket calls map_cached
to check whether the cached value is an Err and, if so, calls clear, so
that this very access triggers a fresh fetch (invoking the factory)
instead of serving the cached error; a cached non-Err value is served
unchanged. -/
theorem get_bucket_clears_error_before_get (w : CacheWorld T)
    (isErr : T → Bool) (now : Instant) (f : Factory T) (v : T)
    (e : Option Instant) (hc : w.cache = InnerCache.cached v e)
    (hv : stillValid e now = true) :
    (isErr v = true →
      get_bucket_step w isErr now f = Cached.getStep (Cached.clear w) now f
      ∧ (get_bucket_step w isErr now f).2.invoked = w.invoked ++ [f.fid])
    ∧ (isErr v = false →
      get_bucket_step w isErr now f = (GetOutcome.fastPath v, w)) := by
  constructor
  · intro hErr
    have h1 : get_bucket_step w isErr now f
        = Cached.getStep (Cached.clear w) now f := by
      simp [get_bucket_step, Cached.map_cached, hc, hv, hErr]
    refine ⟨h1, ?_⟩
    rw [h1, getStep_clear, startFetch_spec]
    simp [Cached.clear]
  · intro hOk
    simp [get_bucket_step, Cached.map_cached, hc, hv, hOk, Cached.getStep]

/-- Witness for get_bucket_clears_error_before_get: a cached Err is
cleared and refetched by the same call, a cached Ok is served. -/
theorem get_bucket_clears_error_before_get_witness :
    (get_bucket_step exampleCachedErrWorld id 0 ⟨3, false⟩).2.invoked = [3]
    ∧ get_bucket_step (⟨InnerCache.cached false none, some 10, [], [], [], []⟩ :
        CacheWorld Bool) id 0 ⟨3, false⟩ =
      (GetOutcome.fastPath false,
        ⟨InnerCache.cached false none, some 10, [], [], [], []⟩) :=
  ⟨((get_bucket_clears_error_before_get exampleCachedErrWorld id 0 ⟨3, false⟩
      true none rfl rfl).1 rfl).2,
   (get_bucket_clears_error_before_get _ id 0 ⟨3, false⟩ false none rfl rfl).2
      rfl⟩

/-- C10: when Cached::get observes Inflight, it passes the caller
factory to the existing coalescer without the cache-storing wrapper and
leaves the cache state untouched; tasks without the wrapper never write
the cache on completion; and if that coalescer's sender is already dead,
the caller factory executes and its value is broadcast to the caller,
but the state still reads Inflight afterwards: no Cached entry is ever
written by this path. -/
theorem inflight_join_no_store (w : CacheWorld T) (now : Instant)
    (f : Factory T) (rid : Nat) (hc : w.cache = InnerCache.inflight rid) :
    Cached.getStep w now f =
      (GetOutcome.handleWait (Request.handle w rid f false).chan,
        (Request.handle w rid f false).world)
    ∧ (Request.handle w rid f false).world.cache = InnerCache.inflight rid
    ∧ (∀ (w2 : CacheWorld T) (i : Nat) (t : FetchTask T),
        w2.tasks[i]? = some t → t.writesCache = false →
        (taskComplete w2 now i).cache = w2.cache)
    ∧ (∀ c, (reqAt w rid).inflight = some c →
        (chanAt w c).senderLive = false →
        (Request.handle w rid f false).world.invoked = w.invoked ++ [f.fid]
        ∧ (taskComplete (Request.handle w rid f false).world now
            w.tasks.length).cache = InnerCache.inflight rid
        ∧ recvResolve (taskComplete (Request.handle w rid f false).world now
            w.tasks.length) (Request.handle w rid f false).chan
            = some (Except.ok f.value)) := by
  refine ⟨by simp [Cached.getStep, hc], ?_, ?_, ?_⟩
  · rcases hg : get_reciever w rid with _ | c <;>
      simp [Request.handle, hg, hc]
  · intro w2 i t ht hwr
    simp [taskComplete, ht, hwr]
  · intro c hin hdead
    have hrecv : get_reciever w rid = none := by
      simp [get_reciever, hin, hdead]
    have htask : (Request.handle w rid f false).world.tasks[w.tasks.length]?
        = some ⟨w.channels.length, rid, f.value, false, w.expiration⟩ := by
      simp [Request.handle, hrecv]
    refine ⟨by simp [Request.handle, hrecv], ?_, ?_⟩
    · simp [taskComplete, htask, Request.handle, hrecv, hc]
    · have hchan : (Request.handle w rid f false).chan = w.channels.length := by
        simp [Request.handle, hrecv]
      rw [hchan]
      have hlen : w.channels.length
          < (Request.handle w rid f false).world.channels.length := by
        simp [Request.handle, hrecv]
      simp [taskComplete, htask, recvResolve, chanAt, Request.handle, hrecv,
        List.getD, List.getElem?_set_self, chanSent, broadcastRecv]

/-- Witness for inflight_join_no_store at the inflight-dead world: the
join passes the raw factory through, and after its completion the cache
still reads Inflight while the caller received the value. -/
theorem inflight_join_no_store_witness :
    Cached.getStep exampleInflightDeadWorld 0 ⟨4, true⟩ =
      (GetOutcome.handleWait
          (Request.handle exampleInflightDeadWorld 0 ⟨4, true⟩ false).chan,
        (Request.handle exampleInflightDeadWorld 0 ⟨4, true⟩ false).world)
    ∧ (taskComplete (Request.handle exampleInflightDeadWorld 0 ⟨4, true⟩
        false).world 0 0).cache = InnerCache.inflight 0
    ∧ recvResolve (taskComplete (Request.handle exampleInflightDeadWorld 0
        ⟨4, true⟩ false).world 0 0) (Request.handle exampleInflightDeadWorld 0
        ⟨4, true⟩ false).chan = some (Except.ok true) :=
  ⟨(inflight_join_no_store exampleInflightDeadWorld 0 ⟨4, true⟩ 0 rfl).1,
   ((inflight_join_no_store exampleInflightDeadWorld 0 ⟨4, true⟩ 0 rfl).2.2.2
      0 rfl rfl).2.1,
   ((inflight_join_no_store exampleInflightDeadWorld 0 ⟨4, true⟩ 0 rfl).2.2.2
      0 rfl rfl).2.2⟩

lemma mem_of_getElem_opt (l : List α) (i : Nat) (a : α) (h : l[i]? = some a) :
    a ∈ l := by
  rcases List.getElem?_eq_some_iff.mp h with ⟨hlt, rfl⟩
  exact List.getElem_mem hlt

lemma handle_world_requests_length (w : CacheWorld T) (rid : Nat)
    (f : Factory T) (b : Bool) :
    (Request.handle w rid f b).world.requests.length = w.requests.length := by
  cases hg : get_reciever w rid with
  | none => simp [Request.handle, hg]
  | some c => simp [Request.handle, hg]

lemma wf_handle (w : CacheWorld T) (rid : Nat) (f : Factory T) (b : Bool)
    (hw : WF w) (hrid : rid < w.requests.length) :
    WF (Request.handle w rid f b).world := by
  cases hg : get_reciever w rid with
  | some c => simpa [Request.handle, hg] using hw
  | none =>
    have hnotask : ∀ t ∈ w.tasks, t.req ≠ rid := by
      intro t ht heq
      have h1 := hw.taskInflight t ht
      have h2 := hw.taskLive t ht
      rw [heq] at h1
      simp [get_reciever, h1, h2] at hg
    simp only [Request.handle, hg]
    constructor
    · intro t ht
      rcases List.mem_append.mp ht with h | h
      · have := hw.taskChanLt t h
        simp only [List.length_append]
        omega
      · simp only [List.mem_singleton] at h
        subst h
        simp
    · intro t ht
      rcases List.mem_append.mp ht with h | h
      · have := hw.taskReqLt t h
        simpa [List.length_set] using this
      · simp only [List.mem_singleton] at h
        subst h
        simpa [List.length_set] using hrid
    · intro t ht
      rcases List.mem_append.mp ht with h | h
      · have hne : rid ≠ t.req := Ne.symm (hnotask t h)
        show ((w.requests.set rid (⟨some w.channels.length⟩ : RequestInner)).getD
          t.req (⟨none⟩ : RequestInner)).inflight = some t.chan
        rw [getD_set_ne _ _ _ _ _ hne]
        exact hw.taskInflight t h
      · simp only [List.mem_singleton] at h
        subst h
        show ((w.requests.set rid (⟨some w.channels.length⟩ : RequestInner)).getD
          rid (⟨none⟩ : RequestInner)).inflight = some w.channels.length
        rw [getD_set_self _ _ _ _ hrid]
    · intro t ht
      rcases List.mem_append.mp ht with h | h
      · show ((w.channels ++ [(⟨true, none⟩ : BChannel T)]).getD t.chan
          (⟨false, none⟩ : BChannel T)).senderLive = true
        rw [getD_append_left _ _ _ _ (hw.taskChanLt t h)]
        exact hw.taskLive t h
      · simp only [List.mem_singleton] at h
        subst h
        show ((w.channels ++ [(⟨true, none⟩ : BChannel T)]).getD
          w.channels.length (⟨false, none⟩ : BChannel T)).senderLive = true
        rw [getD_append_length]
    · rw [List.map_append]
      refine List.nodup_append.mpr ⟨hw.chanNodup, List.nodup_singleton _, ?_⟩
      intro a ha hb
      simp only [List.map_cons, List.map_nil, List.mem_singleton] at hb
      subst hb
      rcases List.mem_map.mp ha with ⟨t, htm, hteq⟩
      have := hw.taskChanLt t htm
      omega
    · intro rid2 h
      rw [List.length_set]
      exact hw.cacheRid rid2 h

lemma wf_clear (w : CacheWorld T) (hw : WF w) : WF (Cached.clear w) := by
  refine ⟨hw.taskChanLt, hw.taskReqLt, hw.taskInflight, hw.taskLive,
    hw.chanNodup, ?_⟩
  intro rid h
  simp [Cached.clear] at h

lemma wf_pushRequest (w : CacheWorld T) (hw : WF w) :
    WF ({ w with requests := w.requests ++ [⟨none⟩] } : CacheWorld T) := by
  constructor
  · exact hw.taskChanLt
  · intro t ht
    have := hw.taskReqLt t ht
    simp only [List.length_append]
    omega
  · intro t ht
    show ((w.requests ++ [(⟨none⟩ : RequestInner)]).getD t.req
      (⟨none⟩ : RequestInner)).inflight = some t.chan
    rw [getD_append_left _ _ _ _ (hw.taskReqLt t ht)]
    exact hw.taskInflight t ht
  · exact hw.taskLive
  · exact hw.chanNodup
  · intro rid2 h
    have := hw.cacheRid rid2 h
    simp only [List.length_append]
    omega

lemma wf_complete (w : CacheWorld T) (now : Instant) (i : Nat) (hw : WF w) :
    WF (taskComplete w now i) := by
  cases ht : w.tasks[i]? with
  | none =>
    have heq : taskComplete w now i = w := by simp [taskComplete, ht]
    rw [heq]
    exact hw
  | some t =>
    have htm : t ∈ w.tasks := mem_of_getElem_opt _ _ _ ht
    have htg : w.tasks.get? i = some t := by
      rw [List.get?_eq_getElem?]
      exact ht
    have hchanne : ∀ x ∈ w.tasks.eraseIdx i, x.chan ≠ t.chan :=
      fun x hx =>
        map_nodup_eraseIdx_ne w.tasks FetchTask.chan i t hw.chanNodup htg x hx
    have hsubm : ∀ x ∈ w.tasks.eraseIdx i, x ∈ w.tasks :=
      fun x hx => List.Sublist.subset (List.eraseIdx_sublist _ i) hx
    have hreqne : ∀ x ∈ w.tasks.eraseIdx i, x.req ≠ t.req := by
      intro x hx heq
      have h1 := hw.taskInflight x (hsubm x hx)
      have h2 := hw.taskInflight t htm
      rw [heq] at h1
      rw [h2] at h1
      exact hchanne x hx (Option.some.inj h1).symm
    have heq : taskComplete w now i =
        ({ w with
          cache := if t.writesCache
            then InnerCache.new_with_value t.value t.expiration now
            else w.cache
          requests := w.requests.set t.req ⟨none⟩
          channels := w.channels.set t.chan ⟨false, some t.value⟩
          tasks := w.tasks.eraseIdx i } : CacheWorld T) := by
      simp [taskComplete, ht]
    rw [heq]
    constructor
    · intro x hx
      rw [List.length_set]
      exact hw.taskChanLt x (hsubm x hx)
    · intro x hx
      rw [List.length_set]
      exact hw.taskReqLt x (hsubm x hx)
    · intro x hx
      show ((w.requests.set t.req (⟨none⟩ : RequestInner)).getD x.req
        (⟨none⟩ : RequestInner)).inflight = some x.chan
      rw [getD_set_ne _ _ _ _ _ (Ne.symm (hreqne x hx))]
      exact hw.taskInflight x (hsubm x hx)
    · intro x hx
      show ((w.channels.set t.chan (⟨false, some t.value⟩ : BChannel T)).getD
        x.chan (⟨false, none⟩ : BChannel T)).senderLive = true
      rw [getD_set_ne _ _ _ _ _ (Ne.symm (hchanne x hx))]
      exact hw.taskLive x (hsubm x hx)
    · exact List.Nodup.sublist
        (List.Sublist.map _ (List.eraseIdx_sublist _ i)) hw.chanNodup
    · intro rid2 h
      rw [List.length_set]
      split at h
      · simp [InnerCache.new_with_value] at h
      · exact hw.cacheRid rid2 h

lemma wf_startFetch (w : CacheWorld T) (f : Factory T) (hw : WF w) :
    WF (Cached.startFetch w f).2 := by
  have h1 := wf_pushRequest w hw
  have h2 := wf_handle ({ w with requests := w.requests ++ [⟨none⟩] } :
    CacheWorld T) w.requests.length f true h1 (by simp)
  constructor
  · exact h2.taskChanLt
  · exact h2.taskReqLt
  · exact h2.taskInflight
  · exact h2.taskLive
  · exact h2.chanNodup
  · intro rid2 h
    have h3 : InnerCache.inflight w.requests.length
        = InnerCache.inflight rid2 := h
    injection h3 with h4
    have hlen : (Cached.startFetch w f).2.requests.length
        = w.requests.length + 1 := by
      rw [startFetch_spec]
      simp [List.length_set]
    rw [hlen]
    omega

lemma wf_getStep (w : CacheWorld T) (now : Instant) (f : Factory T)
    (hw : WF w) : WF (Cached.getStep w now f).2 := by
  rcases hcache : w.cache with _ | rid | ⟨v, e⟩
  · simpa [Cached.getStep, hcache] using wf_startFetch w f hw
  · have hrid := hw.cacheRid rid hcache
    simpa [Cached.getStep, hcache] using wf_handle w rid f false hw hrid
  · by_cases hv : stillValid e now = true
    · simpa [Cached.getStep, hcache, hv] using hw
    · rw [show Cached.getStep w now f = Cached.startFetch w f by
        simp [Cached.getStep, hcache, hv]]
      exact wf_startFetch w f hw

lemma wf_step (w w' : CacheWorld T) (hw : WF w) (hs : Step w w') : WF w' := by
  cases hs with
  | get now f => exact wf_getStep w now f hw
  | clear => exact wf_clear w hw
  | handle rid f b h => exact wf_handle w rid f b hw h
  | complete now i => exact wf_complete w now i hw

lemma wf_init (e : Option Nat) : WF (initWorld (T := T) e) := by
  constructor <;> simp [initWorld]

lemma wf_atMostOne (w : CacheWorld T) (rid : Nat) (hw : WF w) :
    (fetchesOf w rid).length ≤ 1 := by
  rcases hl : fetchesOf w rid with _ | ⟨a, _ | ⟨b, rest⟩⟩
  · simp
  · simp
  · exfalso
    have hsub : List.Sublist (fetchesOf w rid) w.tasks :=
      List.filter_sublist w.tasks
    have hnd : ((fetchesOf w rid).map FetchTask.chan).Nodup :=
      List.Nodup.sublist (List.Sublist.map _ hsub) hw.chanNodup
    have hmema : a ∈ fetchesOf w rid := by
      rw [hl]
      exact List.mem_cons_self a _
    have hmemb : b ∈ fetchesOf w rid := by
      rw [hl]
      exact List.mem_cons_of_mem a (List.mem_cons_self b _)
    have hreq : ∀ x ∈ fetchesOf w rid, x.req = rid := by
      intro x hx
      have := (List.mem_filter.mp hx).2
      simpa using this
    have ha := hw.taskInflight a (List.Sublist.subset hsub hmema)
    have hb := hw.taskInflight b (List.Sublist.subset hsub hmemb)
    rw [hreq a hmema] at ha
    rw [hreq b hmemb] at hb
    rw [ha] at hb
    have hchan : a.chan = b.chan := Option.some.inj hb
    rw [hl] at hnd
    simp [List.nodup_cons, hchan] at hnd

lemma recv_after_complete (w : CacheWorld T) (now : Instant) (i : Nat)
    (t : FetchTask T) (ht : w.tasks[i]? = some t)
    (hlt : t.chan < w.channels.length) :
    recvResolve (taskComplete w now i) t.chan = some (Except.ok t.value) := by
  have heq : chanAt (taskComplete w now i) t.chan = ⟨false, some t.value⟩ := by
    simp [taskComplete, ht, chanAt, List.getD, List.getElem?_set_self, hlt]
  simp [recvResolve, heq, chanSent, broadcastRecv]

lemma handleAll_of_live (w : CacheWorld T) (rid c : Nat)
    (hl : liveInflight w rid c) (fs : List (Factory T)) :
    handleAll w rid fs = (List.replicate fs.length c, w) := by
  induction fs with
  | nil => simp [handleAll]
  | cons f rest ih =>
    simp [handleAll, handle_of_live w rid c f false hl, ih,
      List.replicate_succ]

/-- C1 single-flight: well-formedness (every pending fetch is the live
fetch its request points at, with pairwise distinct channels) holds of a
fresh cache and is preserved by every atomic step, and under it each
coalescer instance has at most one fetch in flight. While a fetch is in
flight, any number of further Request::handle calls all subscribe to the
existing broadcast channel and change nothing, so the later callers
factories are never invoked; Cached::get in the Inflight state does the
same; and when the in-flight task completes, the broadcast channel
resolves every subscriber to that same produced value (each subscriber
receiving its own clone). -/
theorem single_flight :
    (∀ (e : Option Nat), WF (initWorld (T := T) e))
    ∧ (∀ (w w' : CacheWorld T), WF w → Step w w' → WF w')
    ∧ (∀ (w : CacheWorld T) (rid : Nat), WF w →
        (fetchesOf w rid).length ≤ 1)
    ∧ (∀ (w : CacheWorld T) (rid c : Nat) (fs : List (Factory T)),
        liveInflight w rid c →
        handleAll w rid fs = (List.replicate fs.length c, w))
    ∧ (∀ (w : CacheWorld T) (now : Instant) (f : Factory T) (rid c : Nat),
        w.cache = InnerCache.inflight rid → liveInflight w rid c →
        Cached.getStep w now f = (GetOutcome.handleWait c, w))
    ∧ (∀ (w : CacheWorld T) (now : Instant) (i : Nat) (t : FetchTask T),
        w.tasks[i]? = some t → t.chan < w.channels.length →
        recvResolve (taskComplete w now i) t.chan
          = some (Except.ok t.value)) := by
  refine ⟨wf_init, wf_step, fun w rid hw => wf_atMostOne w rid hw,
    fun w rid c fs hl => handleAll_of_live w rid c hl fs, ?_,
    fun w now i t ht hlt => recv_after_complete w now i t ht hlt⟩
  intro w now f rid c hc hl
  simp [Cached.getStep, hc, handle_of_live w rid c f false hl]

lemma exampleLiveInflightWorld_wf : WF exampleLiveInflightWorld := by
  refine ⟨by decide, by decide, by decide, by decide, by decide, ?_⟩
  intro rid h
  have h2 : InnerCache.inflight 0 = InnerCache.inflight rid := h
  injection h2 with h3
  simp [exampleLiveInflightWorld]
  omega

/-- Witness for single_flight: the initial world and a cleared world are
well-formed, the live-inflight world has a single fetch in flight, two
further handle calls both subscribe to channel 0 without changing
anything, Cached::get joins the same channel, and completing the task
resolves the channel to the produced value. -/
theorem single_flight_witness :
    WF (initWorld (T := Bool) (some 10))
    ∧ WF (Cached.clear (initWorld (T := Bool) (some 10)))
    ∧ (fetchesOf exampleLiveInflightWorld 0).length ≤ 1
    ∧ handleAll exampleLiveInflightWorld 0 [⟨5, false⟩, ⟨6, true⟩]
        = (List.replicate 2 0, exampleLiveInflightWorld)
    ∧ Cached.getStep exampleLiveInflightWorld 3 ⟨5, false⟩
        = (GetOutcome.handleWait 0, exampleLiveInflightWorld)
    ∧ recvResolve (taskComplete exampleLiveInflightWorld 3 0) 0
        = some (Except.ok true) :=
  ⟨single_flight.1 (some 10),
   single_flight.2.1 _ _ (single_flight.1 (some 10)) (Step.clear _),
   single_flight.2.2.1 exampleLiveInflightWorld 0 exampleLiveInflightWorld_wf,
   single_flight.2.2.2.1 exampleLiveInflightWorld 0 0 [⟨5, false⟩, ⟨6, true⟩]
     ⟨rfl, rfl⟩,
   single_flight.2.2.2.2.1 exampleLiveInflightWorld 3 ⟨5, false⟩ 0 0 rfl
     ⟨rfl, rfl⟩,
   single_flight.2.2.2.2.2 exampleLiveInflightWorld 3 0 ⟨0, 0, true, false, none⟩
     rfl (by decide)⟩

end Echocache
